import Mathlib

/-!
# AI Snake Game: the game-state engine of `src/App.js`

A shallow embedding of the state held by the `AISnakeGame` component and of the
handlers that change it (`generateFood`, `moveSnake`, `handleKeyPress`,
`resetGame`, `changeDifficulty`), followed by theorems about them.

Modelling conventions.

* JavaScript numbers that hold grid positions and direction components are `Int`;
  the remainder operator `%` is the truncating remainder `Int.tmod`.
* `Math.random()` is a fixed sequence `rand : Nat → ℚ` of the values the calls
  return, together with a counter `used` of the calls made so far: the `k`-th call
  returns `rand k`.  The decimal literals of `DIFFICULTY_SETTINGS` are taken at
  their written value.
* Products of a draw with `GRID_SIZE` are exact here.  The code floors the
  double-precision product, which is within `2^-50` of the exact one and never
  below its floor: the cell of a new food in the code is `floor(r * N)` or, when
  `r * N` lies within `2^-50` below an integer, possibly one more (the draw 0.6
  as a double gives 9 in the code and 8 here).  The range `[0, N)` holds for both.
* `playSound` appends the sound to a log; a failed playback is caught inside
  `playSound` and never reaches the state.
* Every handler runs against the values of the render it was created in.  The
  handlers that read a value after a setter was called for it take that value as
  an explicit argument (`generateFood` and `resetGame` take the `difficulty` of the
  closure).
-/

namespace AISnakeGame

/-- Side of the square grid (`GRID_SIZE`). -/
def GRID_SIZE : Int := 15

/-- A cell `{ x, y }`; also used for the direction vector. -/
structure Coord where
  x : Int
  y : Int
deriving DecidableEq, Repr

/-- The snake at the start of a run (`INITIAL_SNAKE`). -/
def INITIAL_SNAKE : List Coord := [⟨7, 7⟩]

/-- The direction at the start of a run (`INITIAL_DIRECTION`). -/
def INITIAL_DIRECTION : Coord := ⟨1, 0⟩

/-- The labels a food item can carry (`AI_TERMS`). -/
def AI_TERMS : List String := ["🧠", "🤖", "📊", "💻", "🔬", "📈", "🗃️", "📡"]

/-- The keys of `DIFFICULTY_SETTINGS`. -/
inductive Difficulty where
  | easy
  | medium
  | hard
deriving DecidableEq, Repr

/-- One row of `DIFFICULTY_SETTINGS`. -/
structure Setting where
  speed : Nat
  foodFrequency : ℚ

/-- The table `DIFFICULTY_SETTINGS`. -/
def DIFFICULTY_SETTINGS : Difficulty → Setting
  | .easy => ⟨200, 1 / 10⟩
  | .medium => ⟨150, 7 / 100⟩
  | .hard => ⟨100, 1 / 20⟩

/-- A food item `{ x, y, emoji }`; `emoji = none` stands for `undefined`. -/
structure Food where
  x : Int
  y : Int
  emoji : Option String
deriving DecidableEq, Repr

/-- The state cells of the component (`useState`). -/
structure GameState where
  snake : List Coord
  direction : Coord
  food : Food
  gameOver : Bool
  score : Nat
  difficulty : Difficulty
  gameSpeed : Nat
deriving DecidableEq, Repr

/-- The three audio clips handed to `playSound`. -/
inductive Sound where
  | eatSound
  | gameOverSound
  | turnSound
deriving DecidableEq, Repr

/-- The state cells together with what the handlers have done to the outside:
the number of `Math.random()` calls made and the sounds played (oldest first). -/
structure World where
  st : GameState
  used : Nat
  sounds : List Sound
deriving DecidableEq, Repr

/-- Array indexing `xs[i]`: `undefined` outside the array. -/
def jsIndex (xs : List String) (i : Int) : Option String :=
  if i < 0 then none else xs.get? i.toNat

/-- The value of the state cells after the first render. -/
def initialState : GameState :=
  { snake := INITIAL_SNAKE
    direction := INITIAL_DIRECTION
    food := ⟨5, 5, jsIndex AI_TERMS 0⟩
    gameOver := false
    score := 0
    difficulty := .medium
    gameSpeed := (DIFFICULTY_SETTINGS .medium).speed }

/-- The world before any handler has run. -/
def initialWorld : World := ⟨initialState, 0, []⟩

/-- The clip is restarted and played (`playSound`). -/
def playSound (sound : Sound) (w : World) : World :=
  { w with sounds := w.sounds ++ [sound] }

/-- The setter of the `snake` cell. -/
def setSnake (v : List Coord) (w : World) : World :=
  { w with st := { w.st with snake := v } }

/-- The setter of the `direction` cell. -/
def setDirection (v : Coord) (w : World) : World :=
  { w with st := { w.st with direction := v } }

/-- The setter of the `food` cell. -/
def setFood (v : Food) (w : World) : World :=
  { w with st := { w.st with food := v } }

/-- The setter of the `gameOver` cell. -/
def setGameOver (v : Bool) (w : World) : World :=
  { w with st := { w.st with gameOver := v } }

/-- The setter of the `score` cell, called with an updater (`prevScore => ...`);
`setScore(0)` is the constant updater. -/
def setScore (f : Nat → Nat) (w : World) : World :=
  { w with st := { w.st with score := f w.st.score } }

/-- The setter of the `difficulty` cell. -/
def setDifficulty (v : Difficulty) (w : World) : World :=
  { w with st := { w.st with difficulty := v } }

/-- The setter of the `gameSpeed` cell. -/
def setGameSpeed (v : Nat) (w : World) : World :=
  { w with st := { w.st with gameSpeed := v } }

/-- The next `n` calls of `Math.random()` have been made. -/
def drawn (n : Nat) (w : World) : World :=
  { w with used := w.used + n }

/-- The object `newFood` built in `generateFood` from three draws, with the
products taken exactly (the code floors the double-precision products). -/
def newFood (rx ry re : ℚ) : Food :=
  { x := ⌊rx * GRID_SIZE⌋
    y := ⌊ry * GRID_SIZE⌋
    emoji := jsIndex AI_TERMS ⌊re * (AI_TERMS.length : ℚ)⌋ }

/-- The handler `generateFood`, for the `difficulty` of its closure: one draw for
the gate and, when the gate lets it through, three more for the new food. -/
def generateFood (rand : Nat → ℚ) (difficulty : Difficulty) (w : World) : World :=
  if rand w.used > (DIFFICULTY_SETTINGS difficulty).foodFrequency then
    drawn 1 w
  else
    setFood (newFood (rand (w.used + 1)) (rand (w.used + 2)) (rand (w.used + 3))) (drawn 4 w)

/-- The cell `newHead` computed at the start of `moveSnake`. -/
def newHead (head direction : Coord) : Coord :=
  { x := (head.x + direction.x + GRID_SIZE).tmod GRID_SIZE
    y := (head.y + direction.y + GRID_SIZE).tmod GRID_SIZE }

/-- The test `snake.some(segment => segment.x === c.x && segment.y === c.y)`. -/
def onSnake (snake : List Coord) (c : Coord) : Bool :=
  snake.any fun segment => segment.x == c.x && segment.y == c.y

/-- The handler `moveSnake` (one tick), reading the cells of `w`.  `none` is the
`TypeError` raised by `snake[0].x` on an empty snake. -/
def moveSnake (rand : Nat → ℚ) (w : World) : Option World :=
  if w.st.gameOver then some w
  else
    match w.st.snake with
    | [] => none
    | head :: _ =>
      let nh := newHead head w.st.direction
      if onSnake w.st.snake nh then
        some (playSound .gameOverSound (setGameOver true w))
      else
        let newSnake := nh :: w.st.snake
        if nh.x = w.st.food.x ∧ nh.y = w.st.food.y then
          let w1 := setScore (fun prevScore => prevScore + 1) w
          let w2 := playSound .eatSound w1
          let w3 := generateFood rand w.st.difficulty w2
          let w4 := setSnake newSnake w3
          some (generateFood rand w.st.difficulty w4)
        else
          let w1 := setSnake newSnake.dropLast w
          some (generateFood rand w.st.difficulty w1)

/-- The direction an arrow key stands for in `handleKeyPress`; `none` is the
`default` branch of the `switch`. -/
def keyDirection (key : String) : Option Coord :=
  if key = "ArrowUp" then some ⟨0, -1⟩
  else if key = "ArrowDown" then some ⟨0, 1⟩
  else if key = "ArrowLeft" then some ⟨-1, 0⟩
  else if key = "ArrowRight" then some ⟨1, 0⟩
  else none

/-- The handler `handleKeyPress` for the key `e.key`. -/
def handleKeyPress (key : String) (w : World) : World :=
  match keyDirection key with
  | none => w
  | some newDirection =>
    if newDirection.x ≠ w.st.direction.x ∨ newDirection.y ≠ w.st.direction.y then
      playSound .turnSound (setDirection newDirection w)
    else w

/-- The handler `resetGame`, for the `difficulty` its `generateFood` closes over. -/
def resetGame (rand : Nat → ℚ) (difficulty : Difficulty) (w : World) : World :=
  let w1 := setSnake INITIAL_SNAKE w
  let w2 := setDirection INITIAL_DIRECTION w1
  let w3 := generateFood rand difficulty w2
  let w4 := setGameOver false w3
  setScore (fun _ => 0) w4

/-- The handler `changeDifficulty`.  `resetGame` is the one of the current render,
so its `generateFood` still sees the difficulty from before the change. -/
def changeDifficulty (rand : Nat → ℚ) (newDifficulty : Difficulty) (w : World) : World :=
  let w1 := setDifficulty newDifficulty w
  let w2 := setGameSpeed (DIFFICULTY_SETTINGS newDifficulty).speed w1
  resetGame rand w.st.difficulty w2

/-- What can happen to the component: the interval fires, a key goes down, the
"Play Again" button or one of the difficulty buttons is clicked. -/
inductive Action where
  | tick
  | key (k : String)
  | reset
  | difficulty (d : Difficulty)
deriving DecidableEq, Repr

/-- The handler an action runs. -/
def perform (rand : Nat → ℚ) (w : World) : Action → Option World
  | .tick => moveSnake rand w
  | .key k => some (handleKeyPress k w)
  | .reset => some (resetGame rand w.st.difficulty w)
  | .difficulty d => some (changeDifficulty rand d w)

/-- The actions of a list, one after the other; `none` once a handler throws. -/
def run (rand : Nat → ℚ) : List Action → World → Option World
  | [], w => some w
  | a :: as, w => (perform rand w a).bind (run rand as)

/-- The interval firing `n` times in a row. -/
def ticks (rand : Nat → ℚ) : Nat → World → Option World
  | 0, w => some w
  | n + 1, w => (moveSnake rand w).bind (ticks rand n)

/-- The move performed in one direction `n` times from `c`. -/
def stepN (d : Coord) : Nat → Coord → Coord
  | 0, c => c
  | n + 1, c => stepN d n (newHead c d)

/-- The values of `Math.random()` for the scenario "always spawn at (2,2)": every
gate draw is 0, every coordinate draw is 2/15 and every label draw is 0. -/
def stubRand (k : Nat) : ℚ :=
  if k % 4 = 1 ∨ k % 4 = 2 then 2 / 15 else 0

/-- The four directions an arrow key can set in `handleKeyPress`. -/
def unitDirections : List Coord := [⟨0, -1⟩, ⟨0, 1⟩, ⟨-1, 0⟩, ⟨1, 0⟩]

/-- Both axes of a cell lie in `[0, GRID_SIZE)`. -/
def inGrid (c : Coord) : Prop :=
  (0 ≤ c.x ∧ c.x < GRID_SIZE) ∧ (0 ≤ c.y ∧ c.y < GRID_SIZE)

instance (c : Coord) : Decidable (inGrid c) := by
  unfold inGrid; infer_instance

/-- The state of the scenario of C2: the initial state with the food moved to the
cell right of the head, under any label. -/
def scenarioWorld (e : Option String) : World :=
  ⟨{ initialState with food := ⟨8, 7, e⟩ }, 0, []⟩

/-- A running state with a two-segment snake that has just moved right. -/
def reversalWorld : World :=
  ⟨{ initialState with snake := [⟨8, 7⟩, ⟨7, 7⟩], score := 1 }, 0, []⟩

/-- A state in which the game is over. -/
def overWorld : World :=
  ⟨{ initialState with snake := [⟨8, 7⟩, ⟨7, 7⟩], score := 1, gameOver := true }, 0,
    [.eatSound, .gameOverSound]⟩

/-- Draws that never let the spawn gate through. -/
def skipRand (_ : Nat) : ℚ := 1 / 5

/-- A short game: the snake turns left, moves two cells, turns up, moves two cells
and eats the initial food at `(5,5)` on the last tick. -/
def shortGame : List Action :=
  [.key "ArrowLeft", .tick, .tick, .key "ArrowUp", .tick, .tick]

/-- An action is a tick or a key press. -/
def Action.isTickOrKey : Action → Bool
  | .tick => true
  | .key _ => true
  | _ => false

/-- Following the spec (GridModel `step`): `((coord.x + direction.x) mod N,
(coord.y + direction.y) mod N)` with the mathematical, non-negative modulo and
`N` the grid size.  Written from the words of the spec, to be compared with
`newHead`, which is the code. -/
def specStep (coord direction : Coord) : Coord :=
  { x := (coord.x + direction.x) % GRID_SIZE
    y := (coord.y + direction.y) % GRID_SIZE }

/-- The cell a food item lies on. -/
def Food.cell (f : Food) : Coord := ⟨f.x, f.y⟩

/-- Segment `a` is one wrapped step from segment `b` in one of the four directions. -/
def adjacent (a b : Coord) : Prop :=
  ∃ d ∈ unitDirections, newHead b d = a

instance (a b : Coord) : Decidable (adjacent a b) :=
  inferInstanceAs (Decidable (∃ d ∈ unitDirections, newHead b d = a))

/-- Draws that pass every gate and place the food on the centre cell `(7,7)`. -/
def centreRand (k : Nat) : ℚ :=
  if k % 4 = 1 ∨ k % 4 = 2 then 7 / 15 else 0

/-- A game with every kind of action: the short game, then a switch to hard (which
restarts the run), a tick, a turn, a tick, a reset and a last tick. -/
def mixedGame : List Action :=
  shortGame ++ [.difficulty .hard, .tick, .key "ArrowDown", .tick, .reset, .tick]

/-- The shape every run keeps: the direction is one of the four unit vectors, no
cell occurs twice in the snake, consecutive segments are adjacent and every
segment is on the grid. -/
def wellShaped (w : World) : Prop :=
  w.st.direction ∈ unitDirections ∧ w.st.snake.Nodup ∧ w.st.snake.Chain' adjacent ∧
    ∀ c ∈ w.st.snake, inGrid c

instance (w : World) : Decidable (wellShaped w) :=
  inferInstanceAs (Decidable (w.st.direction ∈ unitDirections ∧ w.st.snake.Nodup ∧
    w.st.snake.Chain' adjacent ∧ ∀ c ∈ w.st.snake, inGrid c))

/-! ## The grid -/

/-- One axis of `newHead`, on a position of the grid and a step of at most one
cell, is the non-negative remainder of the sum. -/
theorem wrap_eq_emod (v dv : Int) (hv : 0 ≤ v ∧ v < 15) (hd : -1 ≤ dv ∧ dv ≤ 1) :
    (v + dv + GRID_SIZE).tmod GRID_SIZE = (v + dv) % 15 := by
  unfold GRID_SIZE
  rw [Int.tmod_eq_emod (by omega) (by omega)]
  omega

theorem unitDirections_bounds {d : Coord} (hd : d ∈ unitDirections) :
    (-1 ≤ d.x ∧ d.x ≤ 1) ∧ (-1 ≤ d.y ∧ d.y ≤ 1) := by
  simp only [unitDirections, List.mem_cons, List.mem_singleton, List.mem_nil_iff,
    or_false] at hd
  rcases hd with h | h | h | h <;> subst h <;> decide

theorem newHead_inGrid_of_bounds (c d : Coord) (hc : inGrid c)
    (hd : (-1 ≤ d.x ∧ d.x ≤ 1) ∧ (-1 ≤ d.y ∧ d.y ≤ 1)) : inGrid (newHead c d) := by
  obtain ⟨hx, hy⟩ := hc
  unfold GRID_SIZE at hx hy
  unfold inGrid newHead
  simp only [wrap_eq_emod c.x d.x hx hd.1, wrap_eq_emod c.y d.y hy hd.2]
  unfold GRID_SIZE
  omega

/-- C5. Wraparound range: from a cell with both axes in `[0, 15)`, the new head in
any of the four unit directions, `((c.x + d.x + N) % N, (c.y + d.y + N) % N)` with
`N = GRID_SIZE = 15`, has both axes in `[0, N)`. -/
theorem newHead_range (c d : Coord) (hx : 0 ≤ c.x ∧ c.x < 15) (hy : 0 ≤ c.y ∧ c.y < 15)
    (hd : d ∈ unitDirections) :
    newHead c d = ⟨(c.x + d.x + GRID_SIZE).tmod GRID_SIZE,
        (c.y + d.y + GRID_SIZE).tmod GRID_SIZE⟩ ∧
      GRID_SIZE = 15 ∧
      (0 ≤ (newHead c d).x ∧ (newHead c d).x < GRID_SIZE) ∧
      (0 ≤ (newHead c d).y ∧ (newHead c d).y < GRID_SIZE) :=
  ⟨rfl, rfl, newHead_inGrid_of_bounds c d ⟨hx, hy⟩ (unitDirections_bounds hd)⟩

theorem newHead_range_witness :
    (0 ≤ (newHead ⟨0, 14⟩ ⟨-1, 0⟩).x ∧ (newHead ⟨0, 14⟩ ⟨-1, 0⟩).x < GRID_SIZE) ∧
      (0 ≤ (newHead ⟨0, 14⟩ ⟨-1, 0⟩).y ∧ (newHead ⟨0, 14⟩ ⟨-1, 0⟩).y < GRID_SIZE) :=
  (newHead_range ⟨0, 14⟩ ⟨-1, 0⟩ (by decide) (by decide) (by decide)).2.2

theorem stepN_closed_form (d : Coord) (hd : d ∈ unitDirections) (n : Nat) :
    ∀ c : Coord, inGrid c →
      stepN d n c = ⟨(c.x + n * d.x) % 15, (c.y + n * d.y) % 15⟩ := by
  have hb := unitDirections_bounds hd
  induction n with
  | zero =>
    intro c hc
    obtain ⟨hx, hy⟩ := hc
    unfold GRID_SIZE at hx hy
    simp only [stepN, Nat.cast_zero, zero_mul, add_zero]
    rw [Int.emod_eq_of_lt hx.1 hx.2, Int.emod_eq_of_lt hy.1 hy.2]
  | succ n ih =>
    intro c hc
    have hg := newHead_inGrid_of_bounds c d hc hb
    obtain ⟨hx, hy⟩ := hc
    unfold GRID_SIZE at hx hy
    rw [stepN, ih _ hg]
    simp only [newHead, wrap_eq_emod c.x d.x hx hb.1, wrap_eq_emod c.y d.y hy hb.2]
    simp only [unitDirections, List.mem_cons, List.mem_singleton, List.mem_nil_iff,
      or_false] at hd
    rcases hd with h | h | h | h <;> subst h <;> simp only [Coord.mk.injEq] <;>
      constructor <;> push_cast <;> omega

/-- C6. Wraparound periodicity: from a cell with both axes in `[0, N)`, the
new-head computation applied exactly `N = 15` times in one of the four unit
directions comes back to the cell. -/
theorem stepN_gridSize (c d : Coord) (hc : inGrid c) (hd : d ∈ unitDirections) :
    GRID_SIZE.toNat = 15 ∧ stepN d GRID_SIZE.toNat c = c := by
  refine ⟨rfl, ?_⟩
  have h15 : GRID_SIZE.toNat = 15 := rfl
  rw [h15, stepN_closed_form d hd 15 c hc]
  obtain ⟨hx, hy⟩ := hc
  unfold GRID_SIZE at hx hy
  have hb := unitDirections_bounds hd
  cases c with
  | mk cx cy =>
    simp only [Coord.mk.injEq]
    simp only at hx hy
    constructor <;> push_cast <;> omega

theorem stepN_gridSize_witness :
    inGrid ⟨14, 0⟩ ∧ stepN ⟨1, 0⟩ GRID_SIZE.toNat ⟨14, 0⟩ = ⟨14, 0⟩ :=
  ⟨by decide, (stepN_gridSize ⟨14, 0⟩ ⟨1, 0⟩ (by decide) (by decide)).2⟩

/-! ## Food placement -/

theorem generateFood_skip (rand : Nat → ℚ) (d : Difficulty) (w : World)
    (h : (DIFFICULTY_SETTINGS d).foodFrequency < rand w.used) :
    generateFood rand d w = drawn 1 w := by
  unfold generateFood
  rw [if_pos h]

theorem generateFood_place (rand : Nat → ℚ) (d : Difficulty) (w : World)
    (h : rand w.used ≤ (DIFFICULTY_SETTINGS d).foodFrequency) :
    generateFood rand d w =
      setFood (newFood (rand (w.used + 1)) (rand (w.used + 2)) (rand (w.used + 3)))
        (drawn 4 w) := by
  unfold generateFood
  rw [if_neg (not_lt.mpr h)]

/-- The only state cell `generateFood` writes is the food; it plays no sound. -/
theorem generateFood_frame (rand : Nat → ℚ) (d : Difficulty) (w : World) :
    (generateFood rand d w).st.snake = w.st.snake ∧
      (generateFood rand d w).st.direction = w.st.direction ∧
      (generateFood rand d w).st.gameOver = w.st.gameOver ∧
      (generateFood rand d w).st.score = w.st.score ∧
      (generateFood rand d w).st.difficulty = w.st.difficulty ∧
      (generateFood rand d w).st.gameSpeed = w.st.gameSpeed ∧
      (generateFood rand d w).sounds = w.sounds := by
  unfold generateFood
  split <;> exact ⟨rfl, rfl, rfl, rfl, rfl, rfl, rfl⟩

theorem stubRand_place (d : Difficulty) (w : World) (h : w.used % 4 = 0) :
    generateFood stubRand d w = setFood ⟨2, 2, some "🧠"⟩ (drawn 4 w) := by
  have h0 : stubRand w.used = 0 := by
    unfold stubRand
    rw [if_neg (by omega)]
  have h1 : stubRand (w.used + 1) = 2 / 15 := by
    unfold stubRand
    rw [if_pos (by omega)]
  have h2 : stubRand (w.used + 2) = 2 / 15 := by
    unfold stubRand
    rw [if_pos (by omega)]
  have h3 : stubRand (w.used + 3) = 0 := by
    unfold stubRand
    rw [if_neg (by omega)]
  have hg : stubRand w.used ≤ (DIFFICULTY_SETTINGS d).foodFrequency := by
    rw [h0]
    cases d <;> norm_num [DIFFICULTY_SETTINGS]
  have hfloor : ⌊(2 / 15 : ℚ) * ((15 : Int) : ℚ)⌋ = 2 := by
    have : (2 / 15 : ℚ) * ((15 : Int) : ℚ) = ((2 : Int) : ℚ) := by norm_num
    rw [this, Int.floor_intCast]
  rw [generateFood_place stubRand d w hg, h1, h2, h3]
  simp only [newFood, GRID_SIZE, hfloor, zero_mul, Int.floor_zero]
  rfl

theorem skipRand_skip (d : Difficulty) (w : World) :
    generateFood skipRand d w = drawn 1 w := by
  apply generateFood_skip
  cases d <;> norm_num [DIFFICULTY_SETTINGS, skipRand]

/-! ## One tick -/

theorem onSnake_iff (snake : List Coord) (c : Coord) : onSnake snake c = true ↔ c ∈ snake := by
  unfold onSnake
  rw [List.any_eq_true]
  constructor
  · rintro ⟨s, hs, h⟩
    have hc : s = c := by
      cases s; cases c
      simpa using h
    exact hc ▸ hs
  · intro h
    exact ⟨c, h, by simp⟩

theorem moveSnake_over (rand : Nat → ℚ) (w : World) (hover : w.st.gameOver = true) :
    moveSnake rand w = some w := by
  unfold moveSnake
  rw [if_pos hover]

theorem moveSnake_collide (rand : Nat → ℚ) (w : World) (head : Coord) (tail : List Coord)
    (hrun : w.st.gameOver = false) (hs : w.st.snake = head :: tail)
    (hc : newHead head w.st.direction ∈ w.st.snake) :
    moveSnake rand w = some (playSound .gameOverSound (setGameOver true w)) := by
  have hc2 := (onSnake_iff _ _).mpr hc
  rw [hs] at hc2
  unfold moveSnake
  simp only [hrun, hs, Bool.false_eq_true, if_false, hc2, if_true]

theorem moveSnake_eat (rand : Nat → ℚ) (w : World) (head : Coord) (tail : List Coord)
    (hrun : w.st.gameOver = false) (hs : w.st.snake = head :: tail)
    (hc : newHead head w.st.direction ∉ w.st.snake)
    (hf : (newHead head w.st.direction).x = w.st.food.x ∧
      (newHead head w.st.direction).y = w.st.food.y) :
    moveSnake rand w =
      some (generateFood rand w.st.difficulty
        (setSnake (newHead head w.st.direction :: w.st.snake)
          (generateFood rand w.st.difficulty
            (playSound .eatSound (setScore (fun prevScore => prevScore + 1) w))))) := by
  have hc2 : onSnake (head :: tail) (newHead head w.st.direction) = false := by
    rw [← hs, ← Bool.not_eq_true, onSnake_iff]
    exact hc
  unfold moveSnake
  simp only [hrun, hs, Bool.false_eq_true, if_false, hc2, hf, and_self, if_true]

theorem moveSnake_plain (rand : Nat → ℚ) (w : World) (head : Coord) (tail : List Coord)
    (hrun : w.st.gameOver = false) (hs : w.st.snake = head :: tail)
    (hc : newHead head w.st.direction ∉ w.st.snake)
    (hf : ¬ ((newHead head w.st.direction).x = w.st.food.x ∧
      (newHead head w.st.direction).y = w.st.food.y)) :
    moveSnake rand w =
      some (generateFood rand w.st.difficulty
        (setSnake (newHead head w.st.direction :: w.st.snake).dropLast w)) := by
  have hc2 : onSnake (head :: tail) (newHead head w.st.direction) = false := by
    rw [← hs, ← Bool.not_eq_true, onSnake_iff]
    exact hc
  unfold moveSnake
  simp only [hrun, hs, Bool.false_eq_true, if_false, hc2, hf]

/-- C2. Eating tick: in a running state whose new head is not on the snake and is
the food cell, one tick puts the new head in front of the whole old snake (the
tail is kept, the length grows by one), adds one to the score and plays the eat
sound.  Scenario: on the 15-grid with snake `[(7,7)]`, direction right, food at
`(8,7)` and draws stubbed to always spawn at `(2,2)`, one tick gives score 1,
snake `[(8,7),(7,7)]` and food at `(2,2)`. -/
theorem moveSnake_eating_tick :
    (∀ (rand : Nat → ℚ) (w : World) (head : Coord) (tail : List Coord),
      w.st.gameOver = false → w.st.snake = head :: tail →
      newHead head w.st.direction ∉ w.st.snake →
      (newHead head w.st.direction).x = w.st.food.x ∧
        (newHead head w.st.direction).y = w.st.food.y →
      ∃ w2, moveSnake rand w = some w2 ∧
        w2.st.snake = newHead head w.st.direction :: w.st.snake ∧
        w2.st.snake.length = w.st.snake.length + 1 ∧
        w2.st.score = w.st.score + 1 ∧
        w2.sounds = w.sounds ++ [Sound.eatSound] ∧
        w2.st.gameOver = false) ∧
    (∀ e : Option String, ∃ w2, moveSnake stubRand (scenarioWorld e) = some w2 ∧
        GRID_SIZE = 15 ∧
        (scenarioWorld e).st.snake = [⟨7, 7⟩] ∧ (scenarioWorld e).st.direction = ⟨1, 0⟩ ∧
        (scenarioWorld e).st.food.x = 8 ∧ (scenarioWorld e).st.food.y = 7 ∧
        w2.st.score = 1 ∧ w2.st.snake = [⟨8, 7⟩, ⟨7, 7⟩] ∧
        w2.st.food.x = 2 ∧ w2.st.food.y = 2) := by
  constructor
  · intro rand w head tail hrun hs hc hf
    refine ⟨_, moveSnake_eat rand w head tail hrun hs hc hf, ?_⟩
    obtain ⟨a1, -, a3, a4, -, -, a7⟩ := generateFood_frame rand w.st.difficulty
      (setSnake (newHead head w.st.direction :: w.st.snake)
        (generateFood rand w.st.difficulty
          (playSound .eatSound (setScore (fun prevScore => prevScore + 1) w))))
    obtain ⟨-, -, b3, b4, -, -, b7⟩ := generateFood_frame rand w.st.difficulty
      (playSound .eatSound (setScore (fun prevScore => prevScore + 1) w))
    refine ⟨a1, ?_, ?_, ?_, ?_⟩
    · rw [a1]; rfl
    · rw [a4]; exact b4
    · rw [a7]; exact b7
    · rw [a3]; exact b3.trans hrun
  · intro e
    have hnh : newHead ⟨7, 7⟩ ⟨1, 0⟩ = ⟨8, 7⟩ := by decide
    have hd : (scenarioWorld e).st.direction = ⟨1, 0⟩ := rfl
    have hsn : (scenarioWorld e).st.snake = [⟨7, 7⟩] := rfl
    have hm := moveSnake_eat stubRand (scenarioWorld e) ⟨7, 7⟩ [] rfl rfl
      (by rw [hd, hnh, hsn]; decide)
      (by rw [hd, hnh]; exact ⟨rfl, rfl⟩)
    rw [stubRand_place _ (playSound .eatSound
      (setScore (fun prevScore => prevScore + 1) (scenarioWorld e))) rfl] at hm
    rw [stubRand_place] at hm
    · rw [hd, hnh] at hm
      exact ⟨_, hm, rfl, rfl, rfl, rfl, rfl, rfl, rfl, rfl, rfl⟩
    · show (0 + 4) % 4 = 0
      rfl

theorem moveSnake_eating_tick_witness :
    ∃ w2, moveSnake (fun _ => 1) (scenarioWorld none) = some w2 ∧
      w2.st.snake = [⟨8, 7⟩, ⟨7, 7⟩] ∧ w2.st.score = 1 ∧ w2.sounds = [Sound.eatSound] := by
  obtain ⟨w2, h, h1, -, h3, h4, -⟩ := moveSnake_eating_tick.1 (fun _ => 1) (scenarioWorld none)
    ⟨7, 7⟩ [] rfl rfl (by decide) (by decide)
  exact ⟨w2, h, h1, h3, h4⟩

/-- C3. Self-collision step: in a running state whose new head is one of the
segments of the snake, one tick sets the game-over flag and plays the game-over
sound; snake, food and score keep their values and no draw is made (no spawn
attempt).  No other state cell changes either. -/
theorem moveSnake_self_collision (rand : Nat → ℚ) (w : World) (head : Coord)
    (tail : List Coord) (hrun : w.st.gameOver = false) (hs : w.st.snake = head :: tail)
    (hc : newHead head w.st.direction ∈ w.st.snake) :
    ∃ w2, moveSnake rand w = some w2 ∧
      w2.st.gameOver = true ∧ w2.sounds = w.sounds ++ [Sound.gameOverSound] ∧
      w2.st.snake = w.st.snake ∧ w2.st.food = w.st.food ∧ w2.st.score = w.st.score ∧
      w2.used = w.used ∧
      w2.st = { w.st with gameOver := true } :=
  ⟨_, moveSnake_collide rand w head tail hrun hs hc, rfl, rfl, rfl, rfl, rfl, rfl, rfl⟩

theorem moveSnake_self_collision_witness :
    ∃ w2, moveSnake (fun _ => 0) (setDirection ⟨-1, 0⟩ reversalWorld) = some w2 ∧
      w2.st.gameOver = true ∧ w2.sounds = [Sound.gameOverSound] ∧
      w2.st.snake = [⟨8, 7⟩, ⟨7, 7⟩] ∧ w2.st.score = 1 ∧ w2.used = 0 := by
  obtain ⟨w2, h, h1, h2, h3, -, h5, h6, -⟩ := moveSnake_self_collision (fun _ => 0)
    (setDirection ⟨-1, 0⟩ reversalWorld) ⟨8, 7⟩ [⟨7, 7⟩] rfl rfl (by decide)
  exact ⟨w2, h, h1, h2, h3, h5, h6⟩

/-- C4. Self-collision terminality: once the game-over flag is set a tick changes
nothing, however many ticks follow: the whole world stays the same, that is
snake, score, food, direction and flag, the number of draws made (no randomness is
consumed) and the sound log (no event is signalled). -/
theorem moveSnake_over_noop (rand : Nat → ℚ) (w : World) (hover : w.st.gameOver = true) :
    moveSnake rand w = some w ∧ ∀ n, ticks rand n w = some w := by
  refine ⟨moveSnake_over rand w hover, fun n => ?_⟩
  induction n with
  | zero => rfl
  | succ n ih =>
    rw [ticks, moveSnake_over rand w hover]
    exact ih

theorem moveSnake_over_noop_witness :
    overWorld.st.gameOver = true ∧ ticks (fun _ => 0) 3 overWorld = some overWorld :=
  ⟨rfl, (moveSnake_over_noop (fun _ => 0) overWorld rfl).2 3⟩

/-! ## Direction changes -/

theorem handleKeyPress_left_of_right (w : World) (hdir : w.st.direction = ⟨1, 0⟩) :
    handleKeyPress "ArrowLeft" w = playSound .turnSound (setDirection ⟨-1, 0⟩ w) := by
  have hk : keyDirection "ArrowLeft" = some ⟨-1, 0⟩ := by decide
  unfold handleKeyPress
  rw [hk]
  simp only [hdir]
  rw [if_pos (by decide)]

theorem newHead_left_of_right (b : Coord) (hb : inGrid b) :
    newHead (newHead b ⟨1, 0⟩) ⟨-1, 0⟩ = b := by
  have hg := newHead_inGrid_of_bounds b ⟨1, 0⟩ hb (by decide)
  obtain ⟨gx, gy⟩ := hg
  obtain ⟨hx, hy⟩ := hb
  unfold GRID_SIZE at hx hy gx gy
  have e1 : newHead (newHead b ⟨1, 0⟩) ⟨-1, 0⟩ =
      ⟨((newHead b ⟨1, 0⟩).x + -1) % 15, ((newHead b ⟨1, 0⟩).y + 0) % 15⟩ := by
    show (⟨_, _⟩ : Coord) = _
    rw [wrap_eq_emod _ (-1) gx (by decide), wrap_eq_emod _ 0 gy (by decide)]
  have e2 : newHead b ⟨1, 0⟩ = ⟨(b.x + 1) % 15, (b.y + 0) % 15⟩ := by
    show (⟨_, _⟩ : Coord) = _
    rw [wrap_eq_emod _ 1 hx (by decide), wrap_eq_emod _ 0 hy (by decide)]
  rw [e1, e2]
  cases b with
  | mk bx cy =>
    simp only [Coord.mk.injEq]
    simp only at hx hy
    constructor <;> omega

/-- C7. Reversal edge case: in a running state whose snake has at least two
segments and is moving right (direction `(1,0)`, the second segment being the cell
one step left of the head with wraparound, or equivalently the head being the
cell one step right of a second segment on the grid), pressing ArrowLeft and then
ticking once sets the game-over flag and leaves snake and score as they were. -/
theorem reversal_edge_case (rand : Nat → ℚ) (w : World) (head second : Coord)
    (rest : List Coord) (hrun : w.st.gameOver = false) (hdir : w.st.direction = ⟨1, 0⟩)
    (hs : w.st.snake = head :: second :: rest)
    (hadj : second = newHead head ⟨-1, 0⟩ ∨ (inGrid second ∧ head = newHead second ⟨1, 0⟩)) :
    ∃ w2, moveSnake rand (handleKeyPress "ArrowLeft" w) = some w2 ∧
      w2.st.gameOver = true ∧ w2.st.snake = w.st.snake ∧ w2.st.score = w.st.score := by
  have hsec : newHead head ⟨-1, 0⟩ = second := by
    rcases hadj with h | ⟨hg, h⟩
    · exact h.symm
    · rw [h]; exact newHead_left_of_right second hg
  rw [handleKeyPress_left_of_right w hdir]
  refine ⟨_, moveSnake_collide rand _ head (second :: rest) hrun hs ?_, rfl, rfl, rfl⟩
  show newHead head ⟨-1, 0⟩ ∈ w.st.snake
  rw [hsec, hs]
  simp

theorem reversal_edge_case_witness :
    ∃ w2, moveSnake (fun _ => 0) (handleKeyPress "ArrowLeft" reversalWorld) = some w2 ∧
      w2.st.gameOver = true ∧ w2.st.snake = [⟨8, 7⟩, ⟨7, 7⟩] ∧ w2.st.score = 1 :=
  reversal_edge_case (fun _ => 0) reversalWorld ⟨8, 7⟩ ⟨7, 7⟩ [] rfl rfl rfl
    (Or.inl (by decide))

/-! ## Runs -/

theorem moveSnake_growth (rand : Nat → ℚ) (w : World)
    (h : w.st.snake.length = 1 + w.st.score) :
    ∃ w2, moveSnake rand w = some w2 ∧ w2.st.snake.length = 1 + w2.st.score := by
  cases hover : w.st.gameOver with
  | true => exact ⟨w, moveSnake_over rand w hover, h⟩
  | false =>
    cases hs : w.st.snake with
    | nil => rw [hs] at h; simp at h; omega
    | cons head tail =>
      by_cases hc : newHead head w.st.direction ∈ w.st.snake
      · exact ⟨_, moveSnake_collide rand w head tail hover hs hc, h⟩
      · by_cases hf : (newHead head w.st.direction).x = w.st.food.x ∧
            (newHead head w.st.direction).y = w.st.food.y
        · refine ⟨_, moveSnake_eat rand w head tail hover hs hc hf, ?_⟩
          obtain ⟨a1, -, -, a4, -⟩ := generateFood_frame rand w.st.difficulty
            (setSnake (newHead head w.st.direction :: w.st.snake)
              (generateFood rand w.st.difficulty
                (playSound .eatSound (setScore (fun prevScore => prevScore + 1) w))))
          obtain ⟨-, -, -, b4, -⟩ := generateFood_frame rand w.st.difficulty
            (playSound .eatSound (setScore (fun prevScore => prevScore + 1) w))
          rw [a1, a4]
          show (newHead head w.st.direction :: w.st.snake).length = 1 + (generateFood rand
            w.st.difficulty (playSound .eatSound
              (setScore (fun prevScore => prevScore + 1) w))).st.score
          rw [b4, List.length_cons, h]
          show 1 + w.st.score + 1 = 1 + (w.st.score + 1)
          omega
        · refine ⟨_, moveSnake_plain rand w head tail hover hs hc hf, ?_⟩
          obtain ⟨a1, -, -, a4, -⟩ := generateFood_frame rand w.st.difficulty
            (setSnake (newHead head w.st.direction :: w.st.snake).dropLast w)
          rw [a1, a4]
          show (newHead head w.st.direction :: w.st.snake).dropLast.length = 1 + w.st.score
          rw [List.length_dropLast, List.length_cons, h]
          omega

theorem handleKeyPress_frame (key : String) (w : World) :
    (handleKeyPress key w).st.snake = w.st.snake ∧
      (handleKeyPress key w).st.score = w.st.score ∧
      (handleKeyPress key w).st.food = w.st.food ∧
      (handleKeyPress key w).st.gameOver = w.st.gameOver ∧
      (handleKeyPress key w).used = w.used := by
  unfold handleKeyPress
  split
  · exact ⟨rfl, rfl, rfl, rfl, rfl⟩
  · split <;> exact ⟨rfl, rfl, rfl, rfl, rfl⟩

theorem resetGame_eq (rand : Nat → ℚ) (d : Difficulty) (w : World) :
    resetGame rand d w =
      setScore (fun _ => 0) (setGameOver false
        (generateFood rand d (setDirection INITIAL_DIRECTION (setSnake INITIAL_SNAKE w)))) :=
  rfl

theorem resetGame_frame (rand : Nat → ℚ) (d : Difficulty) (w : World) :
    (resetGame rand d w).st.snake = INITIAL_SNAKE ∧
      (resetGame rand d w).st.direction = INITIAL_DIRECTION ∧
      (resetGame rand d w).st.score = 0 ∧
      (resetGame rand d w).st.gameOver = false ∧
      (resetGame rand d w).st.difficulty = w.st.difficulty ∧
      (resetGame rand d w).st.gameSpeed = w.st.gameSpeed ∧
      (resetGame rand d w).sounds = w.sounds := by
  obtain ⟨a1, a2, -, -, a5, a6, a7⟩ := generateFood_frame rand d
    (setDirection INITIAL_DIRECTION (setSnake INITIAL_SNAKE w))
  exact ⟨a1, a2, rfl, rfl, a5, a6, a7⟩

theorem perform_growth (rand : Nat → ℚ) (w : World) (a : Action)
    (h : w.st.snake.length = 1 + w.st.score) :
    ∃ w2, perform rand w a = some w2 ∧ w2.st.snake.length = 1 + w2.st.score := by
  cases a with
  | tick => exact moveSnake_growth rand w h
  | key k =>
    obtain ⟨a1, a2, -⟩ := handleKeyPress_frame k w
    exact ⟨_, rfl, by rw [a1, a2]; exact h⟩
  | reset =>
    obtain ⟨a1, -, a3, -⟩ := resetGame_frame rand w.st.difficulty w
    exact ⟨_, rfl, by rw [a1, a3]; rfl⟩
  | difficulty d =>
    obtain ⟨a1, -, a3, -⟩ := resetGame_frame rand w.st.difficulty
      (setGameSpeed (DIFFICULTY_SETTINGS d).speed (setDifficulty d w))
    exact ⟨_, rfl, by rw [changeDifficulty, a1, a3]; rfl⟩

theorem run_growth (rand : Nat → ℚ) (acts : List Action) :
    ∀ w : World, w.st.snake.length = 1 + w.st.score →
      ∃ w2, run rand acts w = some w2 ∧ w2.st.snake.length = 1 + w2.st.score := by
  induction acts with
  | nil => exact fun w h => ⟨w, rfl, h⟩
  | cons a as ih =>
    intro w h
    obtain ⟨w1, h1, g1⟩ := perform_growth rand w a h
    obtain ⟨w2, h2, g2⟩ := ih w1 g1
    exact ⟨w2, by rw [run, h1]; exact h2, g2⟩

/-- C1. Growth invariant: from the initial state (snake `[(7,7)]`, score 0), any
sequence of ticks and key presses, under any draws, runs to a state (no handler
throws), and if no game-over has occurred (the flag, which ticks and keys never
clear, is still off at the end) the length of the snake is `1 + score`. -/
theorem growth_invariant (rand : Nat → ℚ) (acts : List Action)
    (hacts : ∀ a ∈ acts, a.isTickOrKey = true) :
    initialWorld.st.snake = [⟨7, 7⟩] ∧ initialWorld.st.score = 0 ∧
      ∃ w, run rand acts initialWorld = some w ∧
        (w.st.gameOver = false → w.st.snake.length = 1 + w.st.score) := by
  obtain ⟨w, hw, hg⟩ := run_growth rand acts initialWorld rfl
  exact ⟨rfl, rfl, w, hw, fun _ => hg⟩

theorem growth_invariant_witness :
    ∃ w, run skipRand shortGame initialWorld = some w ∧ w.st.gameOver = false ∧
      w.st.score = 1 ∧ w.st.snake.length = 1 + w.st.score := by
  obtain ⟨-, -, w, hw, hg⟩ := growth_invariant skipRand shortGame (by decide)
  have n1 : newHead ⟨7, 7⟩ ⟨-1, 0⟩ = ⟨6, 7⟩ := by decide
  have n2 : newHead ⟨6, 7⟩ ⟨-1, 0⟩ = ⟨5, 7⟩ := by decide
  have n3 : newHead ⟨5, 7⟩ ⟨0, -1⟩ = ⟨5, 6⟩ := by decide
  have n4 : newHead ⟨5, 6⟩ ⟨0, -1⟩ = ⟨5, 5⟩ := by decide
  have hrun : run skipRand shortGame initialWorld =
      some ⟨{ initialState with direction := ⟨0, -1⟩, score := 1, snake := [⟨5, 5⟩, ⟨5, 6⟩] },
        5, [.turnSound, .turnSound, .eatSound]⟩ := by
    simp [run, perform, shortGame, handleKeyPress, keyDirection, moveSnake, initialWorld,
      initialState, INITIAL_SNAKE, INITIAL_DIRECTION, onSnake, skipRand_skip, playSound,
      setSnake, setScore, setDirection, drawn, n1, n2, n3, n4, jsIndex, AI_TERMS,
      DIFFICULTY_SETTINGS]
  have hwe := hw.symm.trans hrun
  have hover : w.st.gameOver = false := by
    rw [Option.some.inj hwe]
    rfl
  have hscore : w.st.score = 1 := by
    rw [Option.some.inj hwe]
  exact ⟨w, hw, hover, hscore, hg hover⟩

/-! ## Reset and difficulty change -/

/-- C8 fails as stated: with every draw equal to 1/5, a value in `[0,1)` above the
`foodFrequency` 0.07 of medium, `resetGame` on the initial world makes the gate
draw only and leaves the old food `(5,5)` in place; the food is not the placement
`(3,3)` that the next three draws would have given. -/
theorem resetGame_placement_counterexample :
    (0 ≤ skipRand 0 ∧ skipRand 0 < 1) ∧
      (resetGame skipRand .medium initialWorld).st.food = initialWorld.st.food ∧
      (resetGame skipRand .medium initialWorld).used = initialWorld.used + 1 ∧
      (resetGame skipRand .medium initialWorld).st.food ≠
        newFood (skipRand (initialWorld.used + 1)) (skipRand (initialWorld.used + 2))
          (skipRand (initialWorld.used + 3)) := by
  have hr : resetGame skipRand .medium initialWorld =
      setScore (fun _ => 0) (setGameOver false
        (drawn 1 (setDirection INITIAL_DIRECTION (setSnake INITIAL_SNAKE initialWorld)))) := by
    rw [resetGame_eq, skipRand_skip]
  have hx : (newFood (1 / 5) (1 / 5) (1 / 5)).x = 3 := by
    have h3 : (1 / 5 : ℚ) * ((15 : Int) : ℚ) = ((3 : Int) : ℚ) := by norm_num
    show ⌊(1 / 5 : ℚ) * ((15 : Int) : ℚ)⌋ = 3
    rw [h3, Int.floor_intCast]
  refine ⟨by norm_num [skipRand], ?_, ?_, ?_⟩
  · rw [hr]; rfl
  · rw [hr]; rfl
  · rw [hr]
    intro h
    have h5 : (5 : Int) = (newFood (1 / 5) (1 / 5) (1 / 5)).x := congrArg Food.x h
    rw [hx] at h5
    exact absurd h5 (by decide)

/-- C8, amended. `resetGame` makes one spawn attempt, gated like any other: the
food after it is the food `generateFood` leaves, that is the old food when the
gate draw is strictly greater than the `foodFrequency` of the difficulty (one draw
made), and a fresh placement from the next three draws otherwise (four draws
made).  A food is present either way. -/
theorem resetGame_food_gated (rand : Nat → ℚ) (d : Difficulty) (w : World) :
    (resetGame rand d w).st.food = (generateFood rand d w).st.food ∧
      (resetGame rand d w).st.food =
        (if rand w.used > (DIFFICULTY_SETTINGS d).foodFrequency then w.st.food
          else newFood (rand (w.used + 1)) (rand (w.used + 2)) (rand (w.used + 3))) ∧
      (resetGame rand d w).used =
        (if rand w.used > (DIFFICULTY_SETTINGS d).foodFrequency then w.used + 1
          else w.used + 4) := by
  rw [resetGame_eq]
  unfold generateFood
  by_cases h : rand w.used > (DIFFICULTY_SETTINGS d).foodFrequency
  · have h2 : rand (setDirection INITIAL_DIRECTION (setSnake INITIAL_SNAKE w)).used >
        (DIFFICULTY_SETTINGS d).foodFrequency := h
    simp only [if_pos h, if_pos h2]
    exact ⟨rfl, rfl, rfl⟩
  · have h2 : ¬ rand (setDirection INITIAL_DIRECTION (setSnake INITIAL_SNAKE w)).used >
        (DIFFICULTY_SETTINGS d).foodFrequency := h
    simp only [if_neg h, if_neg h2]
    exact ⟨rfl, rfl, rfl⟩

/-- C9. `resetGame` restores the initial run and keeps the difficulty: from any
state, running or over, and whatever is drawn, afterwards the snake is `[(7,7)]`,
the direction `(1,0)`, the score 0 and the game-over flag off, while difficulty
and tick interval are what they were. -/
theorem resetGame_restores (rand : Nat → ℚ) (d : Difficulty) (w : World) :
    (resetGame rand d w).st.snake = [⟨7, 7⟩] ∧
      (resetGame rand d w).st.direction = ⟨1, 0⟩ ∧
      (resetGame rand d w).st.score = 0 ∧
      (resetGame rand d w).st.gameOver = false ∧
      (resetGame rand d w).st.difficulty = w.st.difficulty ∧
      (resetGame rand d w).st.gameSpeed = w.st.gameSpeed := by
  obtain ⟨a1, a2, a3, a4, a5, a6, -⟩ := resetGame_frame rand d w
  exact ⟨a1, a2, a3, a4, a5, a6⟩

/-- C10. A difficulty change always restarts the run: from any state and for each
difficulty `d`, after `changeDifficulty d` the score is 0, the snake is the single
segment `[(7,7)]`, the game-over flag is off, the difficulty is `d` and the tick
interval is the speed of `d` in the table: 200, 150 and 100 for easy, medium and
hard. -/
theorem changeDifficulty_restarts (rand : Nat → ℚ) (d : Difficulty) (w : World) :
    (changeDifficulty rand d w).st.score = 0 ∧
      (changeDifficulty rand d w).st.snake = [⟨7, 7⟩] ∧
      (changeDifficulty rand d w).st.gameOver = false ∧
      (changeDifficulty rand d w).st.difficulty = d ∧
      (changeDifficulty rand d w).st.gameSpeed = (DIFFICULTY_SETTINGS d).speed ∧
      (changeDifficulty rand d w).st.gameSpeed =
        (match d with
          | .easy => 200
          | .medium => 150
          | .hard => 100) := by
  obtain ⟨a1, -, a3, a4, a5, a6, -⟩ := resetGame_frame rand w.st.difficulty
    (setGameSpeed (DIFFICULTY_SETTINGS d).speed (setDifficulty d w))
  refine ⟨a3, a1, a4, a5, a6, ?_⟩
  rw [changeDifficulty, a6]
  cases d <;> rfl

/-! ## Key presses, the spawn gate and the plain move -/

theorem keyDirection_cases (key : String) :
    (key = "ArrowUp" ∧ keyDirection key = some ⟨0, -1⟩) ∨
      (key = "ArrowDown" ∧ keyDirection key = some ⟨0, 1⟩) ∨
      (key = "ArrowLeft" ∧ keyDirection key = some ⟨-1, 0⟩) ∨
      (key = "ArrowRight" ∧ keyDirection key = some ⟨1, 0⟩) ∨
      (key ≠ "ArrowUp" ∧ key ≠ "ArrowDown" ∧ key ≠ "ArrowLeft" ∧ key ≠ "ArrowRight" ∧
        keyDirection key = none) := by
  unfold keyDirection
  by_cases h1 : key = "ArrowUp"
  · left; subst h1; exact ⟨rfl, by decide⟩
  · by_cases h2 : key = "ArrowDown"
    · right; left; subst h2; exact ⟨rfl, by decide⟩
    · by_cases h3 : key = "ArrowLeft"
      · right; right; left; subst h3; exact ⟨rfl, by decide⟩
      · by_cases h4 : key = "ArrowRight"
        · right; right; right; left; subst h4; exact ⟨rfl, by decide⟩
        · right; right; right; right
          refine ⟨h1, h2, h3, h4, ?_⟩
          rw [if_neg h1, if_neg h2, if_neg h3, if_neg h4]

theorem keyDirection_unit (key : String) (v : Coord) (h : keyDirection key = some v) :
    v ∈ unitDirections := by
  rcases keyDirection_cases key with ⟨-, e⟩ | ⟨-, e⟩ | ⟨-, e⟩ | ⟨-, e⟩ | ⟨-, -, -, -, e⟩ <;>
    rw [e] at h
  · rw [← Option.some.inj h]; decide
  · rw [← Option.some.inj h]; decide
  · rw [← Option.some.inj h]; decide
  · rw [← Option.some.inj h]; decide
  · exact absurd h (by simp)

theorem handleKeyPress_same (key : String) (w : World)
    (h : keyDirection key = some w.st.direction) : handleKeyPress key w = w := by
  unfold handleKeyPress
  rw [h]
  simp

theorem handleKeyPress_turn (key : String) (v : Coord) (w : World)
    (h : keyDirection key = some v) (hne : v ≠ w.st.direction) :
    handleKeyPress key w = playSound .turnSound (setDirection v w) := by
  have hc : v.x ≠ w.st.direction.x ∨ v.y ≠ w.st.direction.y := by
    by_contra hcon
    push_neg at hcon
    apply hne
    cases v with
    | mk vx vy =>
      cases hd : w.st.direction with
      | mk dx dy =>
        rw [hd] at hcon
        simp only at hcon
        rw [hcon.1, hcon.2]
  unfold handleKeyPress
  rw [h]
  simp only
  rw [if_pos hc]

theorem handleKeyPress_other (key : String) (w : World) (h : keyDirection key = none) :
    handleKeyPress key w = w := by
  unfold handleKeyPress
  rw [h]

/-- C11. Direction change: each arrow key stands for its unit vector `v`.  If `v`
is the current direction the world is unchanged (no turn sound); otherwise the
direction becomes `v`, whatever it is (the exact opposite included: no reversal
guard), the turn sound is played once and snake, food, score, game-over flag and
everything else stay as they were.  Any other key leaves the world unchanged. -/
theorem handleKeyPress_direction_change (key : String) (w : World) :
    (keyDirection "ArrowUp" = some ⟨0, -1⟩ ∧ keyDirection "ArrowDown" = some ⟨0, 1⟩ ∧
      keyDirection "ArrowLeft" = some ⟨-1, 0⟩ ∧ keyDirection "ArrowRight" = some ⟨1, 0⟩) ∧
    (∀ v, keyDirection key = some v →
      v ∈ unitDirections ∧
      (v = w.st.direction → handleKeyPress key w = w) ∧
      (v ≠ w.st.direction →
        (handleKeyPress key w).st.direction = v ∧
        (handleKeyPress key w).sounds = w.sounds ++ [Sound.turnSound] ∧
        (handleKeyPress key w).st.snake = w.st.snake ∧
        (handleKeyPress key w).st.food = w.st.food ∧
        (handleKeyPress key w).st.score = w.st.score ∧
        (handleKeyPress key w).st.gameOver = w.st.gameOver ∧
        (handleKeyPress key w).st = { w.st with direction := v } ∧
        (handleKeyPress key w).used = w.used)) ∧
    (key ≠ "ArrowUp" ∧ key ≠ "ArrowDown" ∧ key ≠ "ArrowLeft" ∧ key ≠ "ArrowRight" →
      handleKeyPress key w = w) := by
  refine ⟨⟨by decide, by decide, by decide, by decide⟩, ?_, ?_⟩
  · intro v hv
    refine ⟨keyDirection_unit key v hv, ?_, ?_⟩
    · intro he
      exact handleKeyPress_same key w (he ▸ hv)
    · intro hne
      rw [handleKeyPress_turn key v w hv hne]
      exact ⟨rfl, rfl, rfl, rfl, rfl, rfl, rfl, rfl⟩
  · rintro ⟨h1, h2, h3, h4⟩
    rcases keyDirection_cases key with ⟨e, -⟩ | ⟨e, -⟩ | ⟨e, -⟩ | ⟨e, -⟩ | ⟨-, -, -, -, e⟩
    · exact absurd e h1
    · exact absurd e h2
    · exact absurd e h3
    · exact absurd e h4
    · exact handleKeyPress_other key w e

theorem handleKeyPress_direction_change_witness :
    (handleKeyPress "ArrowLeft" initialWorld).st.direction = ⟨-1, 0⟩ ∧
      (handleKeyPress "ArrowLeft" initialWorld).sounds = [Sound.turnSound] ∧
      handleKeyPress "ArrowRight" initialWorld = initialWorld ∧
      handleKeyPress "a" initialWorld = initialWorld :=
  ⟨(((handleKeyPress_direction_change "ArrowLeft" initialWorld).2.1 ⟨-1, 0⟩
      (by decide)).2.2 (by decide)).1,
    (((handleKeyPress_direction_change "ArrowLeft" initialWorld).2.1 ⟨-1, 0⟩
      (by decide)).2.2 (by decide)).2.1,
    ((handleKeyPress_direction_change "ArrowRight" initialWorld).2.1 ⟨1, 0⟩
      (by decide)).2.1 (by decide),
    (handleKeyPress_direction_change "a" initialWorld).2.2 (by decide)⟩

theorem floor_mul_range (r : ℚ) (n : Int) (hr : 0 ≤ r ∧ r < 1) (hn : 0 < n) :
    0 ≤ ⌊r * (n : ℚ)⌋ ∧ ⌊r * (n : ℚ)⌋ < n := by
  have hq : (0 : ℚ) < (n : ℚ) := by exact_mod_cast hn
  constructor
  · rw [Int.floor_nonneg]
    exact mul_nonneg hr.1 hq.le
  · rw [Int.floor_lt]
    calc r * (n : ℚ) < 1 * (n : ℚ) := mul_lt_mul_of_pos_right hr.2 hq
      _ = (n : ℚ) := one_mul _

theorem jsIndex_AI_TERMS (i : Int) (hi : 0 ≤ i ∧ i < 8) :
    ∃ s ∈ AI_TERMS, jsIndex AI_TERMS i = some s := by
  obtain ⟨h0, h8⟩ := hi
  interval_cases i
  · exact ⟨"🧠", by decide, by decide⟩
  · exact ⟨"🤖", by decide, by decide⟩
  · exact ⟨"📊", by decide, by decide⟩
  · exact ⟨"💻", by decide, by decide⟩
  · exact ⟨"🔬", by decide, by decide⟩
  · exact ⟨"📈", by decide, by decide⟩
  · exact ⟨"🗃️", by decide, by decide⟩
  · exact ⟨"📡", by decide, by decide⟩

theorem newFood_range (rx ry re : ℚ) (hx : 0 ≤ rx ∧ rx < 1) (hy : 0 ≤ ry ∧ ry < 1)
    (he : 0 ≤ re ∧ re < 1) :
    inGrid (newFood rx ry re).cell ∧ ∃ s ∈ AI_TERMS, (newFood rx ry re).emoji = some s := by
  refine ⟨⟨floor_mul_range rx GRID_SIZE hx (by decide),
    floor_mul_range ry GRID_SIZE hy (by decide)⟩, ?_⟩
  have h8 : ((AI_TERMS.length : Nat) : ℚ) = ((8 : Int) : ℚ) := by
    have : AI_TERMS.length = 8 := by decide
    rw [this]
    norm_num
  show ∃ s ∈ AI_TERMS, jsIndex AI_TERMS ⌊re * ((AI_TERMS.length : Nat) : ℚ)⌋ = some s
  rw [h8]
  exact jsIndex_AI_TERMS _ (floor_mul_range re 8 he (by decide))

/-- C12. Spawn gate: `generateFood` leaves the food as it is when the gate draw is
strictly greater than the `foodFrequency` of the difficulty; otherwise (a draw
equal to `foodFrequency` included) the food is replaced.  The new `x` and `y` are
the floor of the product of the next two draws with `N`: the code floors the
double-precision product, which is within `2^-50` of the exact product `rx * N`
and not below `floor(rx * N)`, so `floor(rx * N) ≤ x ≤ floor(rx * N + 2^-50)`, and
`x = floor(rx * N)` whenever `rx * N` is more than `2^-50` below the next integer
(likewise `y`).  The label is `AI_TERMS[floor(re * 8)]` (a product with 8 is not
rounded).  For draws in `[0,1)` both axes are in `[0, N)` and the label is one of
the 8 entries of `AI_TERMS`. -/
theorem generateFood_spawn_gate (rand : Nat → ℚ) (d : Difficulty) (w : World) :
    ((DIFFICULTY_SETTINGS d).foodFrequency < rand w.used →
      (generateFood rand d w).st.food = w.st.food) ∧
    (rand w.used ≤ (DIFFICULTY_SETTINGS d).foodFrequency →
      ((⌊rand (w.used + 1) * GRID_SIZE⌋ ≤ (generateFood rand d w).st.food.x ∧
          (generateFood rand d w).st.food.x ≤ ⌊rand (w.used + 1) * GRID_SIZE + 1 / 2 ^ 50⌋) ∧
        (rand (w.used + 1) * GRID_SIZE + 1 / 2 ^ 50 < ⌊rand (w.used + 1) * GRID_SIZE⌋ + 1 →
          (generateFood rand d w).st.food.x = ⌊rand (w.used + 1) * GRID_SIZE⌋)) ∧
      ((⌊rand (w.used + 2) * GRID_SIZE⌋ ≤ (generateFood rand d w).st.food.y ∧
          (generateFood rand d w).st.food.y ≤ ⌊rand (w.used + 2) * GRID_SIZE + 1 / 2 ^ 50⌋) ∧
        (rand (w.used + 2) * GRID_SIZE + 1 / 2 ^ 50 < ⌊rand (w.used + 2) * GRID_SIZE⌋ + 1 →
          (generateFood rand d w).st.food.y = ⌊rand (w.used + 2) * GRID_SIZE⌋)) ∧
      (generateFood rand d w).st.food.emoji = jsIndex AI_TERMS ⌊rand (w.used + 3) * 8⌋ ∧
      ((0 ≤ rand (w.used + 1) ∧ rand (w.used + 1) < 1) →
        (0 ≤ rand (w.used + 2) ∧ rand (w.used + 2) < 1) →
        (0 ≤ rand (w.used + 3) ∧ rand (w.used + 3) < 1) →
        (0 ≤ (generateFood rand d w).st.food.x ∧
          (generateFood rand d w).st.food.x < GRID_SIZE) ∧
        (0 ≤ (generateFood rand d w).st.food.y ∧
          (generateFood rand d w).st.food.y < GRID_SIZE) ∧
        ∃ s ∈ AI_TERMS, (generateFood rand d w).st.food.emoji = some s)) ∧
    AI_TERMS.length = 8 := by
  have hmono : ∀ q : ℚ, ⌊q⌋ ≤ ⌊q + 1 / 2 ^ 50⌋ := fun q =>
    Int.floor_mono (le_add_of_nonneg_right (by positivity))
  refine ⟨fun h => ?_, fun h => ?_, by decide⟩
  · rw [generateFood_skip rand d w h]
    rfl
  · rw [generateFood_place rand d w h]
    refine ⟨⟨⟨le_refl _, hmono _⟩, fun _ => rfl⟩, ⟨⟨le_refl _, hmono _⟩, fun _ => rfl⟩,
      ?_, ?_⟩
    · show jsIndex AI_TERMS ⌊rand (w.used + 3) * ((AI_TERMS.length : Nat) : ℚ)⌋ = _
      have : AI_TERMS.length = 8 := by decide
      rw [this]
      norm_num
    · intro hx hy he
      obtain ⟨⟨gx, gy⟩, hs⟩ := newFood_range _ _ _ hx hy he
      exact ⟨gx, gy, hs⟩

theorem generateFood_spawn_gate_witness :
    (generateFood skipRand .medium initialWorld).st.food = initialWorld.st.food ∧
      (generateFood stubRand .medium initialWorld).st.food.x = 2 ∧
      (0 ≤ (generateFood stubRand .medium initialWorld).st.food.y ∧
        (generateFood stubRand .medium initialWorld).st.food.y < GRID_SIZE) := by
  have hskip : (DIFFICULTY_SETTINGS .medium).foodFrequency < skipRand initialWorld.used := by
    norm_num [DIFFICULTY_SETTINGS, skipRand]
  have hpass : stubRand initialWorld.used ≤ (DIFFICULTY_SETTINGS .medium).foodFrequency := by
    norm_num [DIFFICULTY_SETTINGS, stubRand, initialWorld]
  have h1 : stubRand (initialWorld.used + 1) = 2 / 15 := by
    norm_num [stubRand, initialWorld]
  have h2 : stubRand (initialWorld.used + 2) = 2 / 15 := by
    norm_num [stubRand, initialWorld]
  have h3 : stubRand (initialWorld.used + 3) = 0 := by
    norm_num [stubRand, initialWorld]
  have hq : (2 / 15 : ℚ) * ((GRID_SIZE : Int) : ℚ) = ((2 : Int) : ℚ) := by
    norm_num [GRID_SIZE]
  have hp := (generateFood_spawn_gate stubRand .medium initialWorld).2.1 hpass
  refine ⟨(generateFood_spawn_gate skipRand .medium initialWorld).1 hskip, ?_, ?_⟩
  · have hx := hp.1.2
    rw [h1, hq, Int.floor_intCast] at hx
    exact hx (by norm_num)
  · exact (hp.2.2.2 (by rw [h1]; norm_num) (by rw [h2]; norm_num)
      (by rw [h3]; norm_num)).2.1

/-- C16. Plain move: in a running state whose new head is neither on the snake nor
on the food cell, one tick makes the snake the new head followed by the old snake
without its last segment (same length), keeps the score and plays no sound (no
eat and no game-over event). -/
theorem moveSnake_plain_move (rand : Nat → ℚ) (w : World) (head : Coord)
    (tail : List Coord) (hrun : w.st.gameOver = false) (hs : w.st.snake = head :: tail)
    (hc : newHead head w.st.direction ∉ w.st.snake)
    (hf : ¬ ((newHead head w.st.direction).x = w.st.food.x ∧
      (newHead head w.st.direction).y = w.st.food.y)) :
    ∃ w2, moveSnake rand w = some w2 ∧
      w2.st.snake = newHead head w.st.direction :: w.st.snake.dropLast ∧
      w2.st.snake.length = w.st.snake.length ∧
      w2.st.score = w.st.score ∧
      w2.sounds = w.sounds ∧
      w2.st.gameOver = false := by
  refine ⟨_, moveSnake_plain rand w head tail hrun hs hc hf, ?_⟩
  obtain ⟨a1, -, a3, a4, -, -, a7⟩ := generateFood_frame rand w.st.difficulty
    (setSnake (newHead head w.st.direction :: w.st.snake).dropLast w)
  have hd : (newHead head w.st.direction :: w.st.snake).dropLast =
      newHead head w.st.direction :: w.st.snake.dropLast := by
    rw [hs]
    rfl
  refine ⟨?_, ?_, ?_, ?_, ?_⟩
  · rw [a1]; exact hd
  · rw [a1]
    show (newHead head w.st.direction :: w.st.snake).dropLast.length = w.st.snake.length
    rw [List.length_dropLast, List.length_cons]
    omega
  · rw [a4]; rfl
  · rw [a7]; rfl
  · rw [a3]; exact hrun

theorem moveSnake_plain_move_witness :
    ∃ w2, moveSnake skipRand initialWorld = some w2 ∧ w2.st.snake = [⟨8, 7⟩] ∧
      w2.st.score = 0 ∧ w2.sounds = [] := by
  obtain ⟨w2, h, h1, -, h3, h4, -⟩ := moveSnake_plain_move skipRand initialWorld ⟨7, 7⟩ []
    rfl rfl (by decide) (by decide)
  exact ⟨w2, h, h1, h3, h4⟩

/-- C17. The new-head computation is the mathematical modulo of the spec: for a
cell with both axes in `[0, N)` and a direction with components in `{-1, 0, 1}`,
the code, `(c.x + d.x + N) % N` and `(c.y + d.y + N) % N` with the truncating
remainder, gives `(c.x + d.x) mod N` and `(c.y + d.y) mod N` with the non-negative
modulo, `N = 15`. -/
theorem newHead_eq_specStep (c d : Coord) (hc : inGrid c)
    (hd : (-1 ≤ d.x ∧ d.x ≤ 1) ∧ (-1 ≤ d.y ∧ d.y ≤ 1)) :
    newHead c d = specStep c d ∧
      (c.x + d.x + GRID_SIZE).tmod GRID_SIZE = (c.x + d.x) % 15 ∧
      (c.y + d.y + GRID_SIZE).tmod GRID_SIZE = (c.y + d.y) % 15 ∧
      GRID_SIZE = 15 := by
  obtain ⟨hx, hy⟩ := hc
  unfold GRID_SIZE at hx hy
  have ex := wrap_eq_emod c.x d.x hx hd.1
  have ey := wrap_eq_emod c.y d.y hy hd.2
  refine ⟨?_, ex, ey, rfl⟩
  show (⟨_, _⟩ : Coord) = ⟨_, _⟩
  rw [ex, ey]
  rfl

theorem newHead_eq_specStep_witness :
    newHead ⟨0, 14⟩ ⟨-1, 1⟩ = specStep ⟨0, 14⟩ ⟨-1, 1⟩ ∧
      specStep ⟨0, 14⟩ ⟨-1, 1⟩ = ⟨14, 0⟩ :=
  ⟨(newHead_eq_specStep ⟨0, 14⟩ ⟨-1, 1⟩ (by decide) (by decide)).1, by decide⟩

/-! ## Spawn attempts within a tick -/

/-- What `generateFood` does to the food and to the draw counter depends only on
the food and the counter it starts from. -/
theorem generateFood_congr (rand : Nat → ℚ) (d : Difficulty) (w1 w2 : World)
    (hu : w1.used = w2.used) (hf : w1.st.food = w2.st.food) :
    (generateFood rand d w1).st.food = (generateFood rand d w2).st.food ∧
      (generateFood rand d w1).used = (generateFood rand d w2).used := by
  unfold generateFood
  rw [hu]
  split
  · exact ⟨hf, congrArg (· + 1) hu⟩
  · exact ⟨rfl, congrArg (· + 4) hu⟩

theorem moveSnake_eat_spawns (rand : Nat → ℚ) (w : World) (head : Coord) (tail : List Coord)
    (hrun : w.st.gameOver = false) (hs : w.st.snake = head :: tail)
    (hc : newHead head w.st.direction ∉ w.st.snake)
    (hf : (newHead head w.st.direction).x = w.st.food.x ∧
      (newHead head w.st.direction).y = w.st.food.y) :
    ∃ w2, moveSnake rand w = some w2 ∧
      w2.st.food =
        (generateFood rand w.st.difficulty (generateFood rand w.st.difficulty w)).st.food ∧
      w2.used =
        (generateFood rand w.st.difficulty (generateFood rand w.st.difficulty w)).used := by
  refine ⟨_, moveSnake_eat rand w head tail hrun hs hc hf, ?_⟩
  obtain ⟨i1, i2⟩ := generateFood_congr rand w.st.difficulty
    (playSound .eatSound (setScore (fun prevScore => prevScore + 1) w)) w rfl rfl
  exact generateFood_congr rand w.st.difficulty _ _ i2 i1

theorem moveSnake_plain_spawns (rand : Nat → ℚ) (w : World) (head : Coord)
    (tail : List Coord) (hrun : w.st.gameOver = false) (hs : w.st.snake = head :: tail)
    (hc : newHead head w.st.direction ∉ w.st.snake)
    (hf : ¬ ((newHead head w.st.direction).x = w.st.food.x ∧
      (newHead head w.st.direction).y = w.st.food.y)) :
    ∃ w2, moveSnake rand w = some w2 ∧
      w2.st.food = (generateFood rand w.st.difficulty w).st.food ∧
      w2.used = (generateFood rand w.st.difficulty w).used :=
  ⟨_, moveSnake_plain rand w head tail hrun hs hc hf,
    generateFood_congr rand w.st.difficulty _ w rfl rfl⟩

/-- C13. Double spawn: a tick that eats runs `generateFood` exactly twice, once
tied to eating and once unconditionally, each with its own gate draw, so the food
and the draws made are those of `generateFood` applied twice in a row from the old
food; a tick that moves without eating runs it exactly once; a colliding tick and
a tick after game-over run it not at all (food kept, no draw made). -/
theorem moveSnake_spawn_attempts (rand : Nat → ℚ) (w : World) :
    (∀ head tail, w.st.gameOver = false → w.st.snake = head :: tail →
      newHead head w.st.direction ∉ w.st.snake →
      ((newHead head w.st.direction).x = w.st.food.x ∧
        (newHead head w.st.direction).y = w.st.food.y) →
      ∃ w2, moveSnake rand w = some w2 ∧
        w2 = generateFood rand w.st.difficulty
          (setSnake (newHead head w.st.direction :: w.st.snake)
            (generateFood rand w.st.difficulty
              (playSound .eatSound (setScore (fun prevScore => prevScore + 1) w)))) ∧
        w2.st.food =
          (generateFood rand w.st.difficulty (generateFood rand w.st.difficulty w)).st.food ∧
        w2.used =
          (generateFood rand w.st.difficulty (generateFood rand w.st.difficulty w)).used) ∧
    (∀ head tail, w.st.gameOver = false → w.st.snake = head :: tail →
      newHead head w.st.direction ∉ w.st.snake →
      ¬ ((newHead head w.st.direction).x = w.st.food.x ∧
        (newHead head w.st.direction).y = w.st.food.y) →
      ∃ w2, moveSnake rand w = some w2 ∧
        w2 = generateFood rand w.st.difficulty
          (setSnake (newHead head w.st.direction :: w.st.snake).dropLast w) ∧
        w2.st.food = (generateFood rand w.st.difficulty w).st.food ∧
        w2.used = (generateFood rand w.st.difficulty w).used) ∧
    (∀ head tail, w.st.gameOver = false → w.st.snake = head :: tail →
      newHead head w.st.direction ∈ w.st.snake →
      ∃ w2, moveSnake rand w = some w2 ∧ w2.st.food = w.st.food ∧ w2.used = w.used) ∧
    (w.st.gameOver = true →
      ∃ w2, moveSnake rand w = some w2 ∧ w2.st.food = w.st.food ∧ w2.used = w.used) := by
  refine ⟨?_, ?_, ?_, ?_⟩
  · intro head tail hrun hs hc hf
    obtain ⟨w2, h, h1, h2⟩ := moveSnake_eat_spawns rand w head tail hrun hs hc hf
    have he := (moveSnake_eat rand w head tail hrun hs hc hf).symm.trans h
    exact ⟨w2, h, (Option.some.inj he).symm, h1, h2⟩
  · intro head tail hrun hs hc hf
    obtain ⟨w2, h, h1, h2⟩ := moveSnake_plain_spawns rand w head tail hrun hs hc hf
    have he := (moveSnake_plain rand w head tail hrun hs hc hf).symm.trans h
    exact ⟨w2, h, (Option.some.inj he).symm, h1, h2⟩
  · intro head tail hrun hs hc
    exact ⟨_, moveSnake_collide rand w head tail hrun hs hc, rfl, rfl⟩
  · intro hover
    exact ⟨w, moveSnake_over rand w hover, rfl, rfl⟩

theorem moveSnake_spawn_attempts_witness :
    (∃ w2, moveSnake stubRand (scenarioWorld none) = some w2 ∧ w2.used = 8 ∧
      w2.st.food = ⟨2, 2, some "🧠"⟩) ∧
    (∃ w2, moveSnake stubRand initialWorld = some w2 ∧ w2.used = 4) ∧
    (∃ w2, moveSnake stubRand (setDirection ⟨-1, 0⟩ reversalWorld) = some w2 ∧ w2.used = 0) ∧
    (∃ w2, moveSnake stubRand overWorld = some w2 ∧ w2.used = 0) := by
  have e1 : generateFood stubRand (scenarioWorld none).st.difficulty (scenarioWorld none) =
      setFood ⟨2, 2, some "🧠"⟩ (drawn 4 (scenarioWorld none)) :=
    stubRand_place _ _ rfl
  have e2 : generateFood stubRand (scenarioWorld none).st.difficulty
      (setFood ⟨2, 2, some "🧠"⟩ (drawn 4 (scenarioWorld none))) =
      setFood ⟨2, 2, some "🧠"⟩ (drawn 4 (setFood ⟨2, 2, some "🧠"⟩
        (drawn 4 (scenarioWorld none)))) :=
    stubRand_place _ _ (by decide)
  have e3 : generateFood stubRand initialWorld.st.difficulty initialWorld =
      setFood ⟨2, 2, some "🧠"⟩ (drawn 4 initialWorld) :=
    stubRand_place _ _ rfl
  refine ⟨?_, ?_, ?_, ?_⟩
  · obtain ⟨w2, h, -, hfood, hused⟩ := (moveSnake_spawn_attempts stubRand
      (scenarioWorld none)).1 ⟨7, 7⟩ [] rfl rfl (by decide) (by decide)
    rw [e1, e2] at hfood hused
    exact ⟨w2, h, hused, hfood⟩
  · obtain ⟨w2, h, -, -, hused⟩ := (moveSnake_spawn_attempts stubRand
      initialWorld).2.1 ⟨7, 7⟩ [] rfl rfl (by decide) (by decide)
    rw [e3] at hused
    exact ⟨w2, h, hused⟩
  · obtain ⟨w2, h, -, hused⟩ := (moveSnake_spawn_attempts stubRand
      (setDirection ⟨-1, 0⟩ reversalWorld)).2.2.1 ⟨8, 7⟩ [⟨7, 7⟩] rfl rfl (by decide)
    exact ⟨w2, h, hused⟩
  · obtain ⟨w2, h, -, hused⟩ := (moveSnake_spawn_attempts stubRand overWorld).2.2.2 rfl
    exact ⟨w2, h, hused⟩

theorem centreRand_place (d : Difficulty) (w : World) (h : w.used % 4 = 0) :
    generateFood centreRand d w = setFood ⟨7, 7, some "🧠"⟩ (drawn 4 w) := by
  have h0 : centreRand w.used = 0 := by
    unfold centreRand
    rw [if_neg (by omega)]
  have h1 : centreRand (w.used + 1) = 7 / 15 := by
    unfold centreRand
    rw [if_pos (by omega)]
  have h2 : centreRand (w.used + 2) = 7 / 15 := by
    unfold centreRand
    rw [if_pos (by omega)]
  have h3 : centreRand (w.used + 3) = 0 := by
    unfold centreRand
    rw [if_neg (by omega)]
  have hg : centreRand w.used ≤ (DIFFICULTY_SETTINGS d).foodFrequency := by
    rw [h0]
    cases d <;> norm_num [DIFFICULTY_SETTINGS]
  have hfloor : ⌊(7 / 15 : ℚ) * ((15 : Int) : ℚ)⌋ = 7 := by
    have : (7 / 15 : ℚ) * ((15 : Int) : ℚ) = ((7 : Int) : ℚ) := by norm_num
    rw [this, Int.floor_intCast]
  rw [generateFood_place centreRand d w hg, h1, h2, h3]
  simp only [newFood, GRID_SIZE, hfloor, zero_mul, Int.floor_zero]
  rfl

/-- C18. Food placement ignores the snake: two states that differ only in the snake
get the same food from `generateFood` under the same draws and difficulty; and a
placement can land on the snake: from the initial state, with draws in `[0,1)`
that pass the gate and give `(7,7)`, the new food lies on the cell of the head. -/
theorem generateFood_ignores_snake :
    (∀ (rand : Nat → ℚ) (d : Difficulty) (w : World) (snake : List Coord),
      (generateFood rand d (setSnake snake w)).st.food = (generateFood rand d w).st.food ∧
      (generateFood rand d (setSnake snake w)).used = (generateFood rand d w).used ∧
      (generateFood rand d (setSnake snake w)).st.snake = snake) ∧
    ((∀ k, 0 ≤ centreRand k ∧ centreRand k < 1) ∧
      (generateFood centreRand .medium initialWorld).st.food ≠ initialWorld.st.food ∧
      (generateFood centreRand .medium initialWorld).st.food.cell ∈
        (generateFood centreRand .medium initialWorld).st.snake ∧
      onSnake (generateFood centreRand .medium initialWorld).st.snake
        (generateFood centreRand .medium initialWorld).st.food.cell = true) := by
  constructor
  · intro rand d w snake
    obtain ⟨h1, h2⟩ := generateFood_congr rand d (setSnake snake w) w rfl rfl
    exact ⟨h1, h2, (generateFood_frame rand d (setSnake snake w)).1⟩
  · have e : generateFood centreRand .medium initialWorld =
        setFood ⟨7, 7, some "🧠"⟩ (drawn 4 initialWorld) := centreRand_place _ _ rfl
    refine ⟨?_, ?_, ?_, ?_⟩
    · intro k
      unfold centreRand
      split <;> norm_num
    · rw [e]; decide
    · rw [e]; decide
    · rw [e]; decide

/-- C20. Eaten food can stay where it was: on an eating tick (the new head is the
food cell and not on the snake) in which both spawn attempts draw a gate value
strictly greater than the `foodFrequency` of the difficulty, the food after the
tick is the food before it, so the food lies on the new head of the snake. -/
theorem moveSnake_eaten_food_stays (rand : Nat → ℚ) (w : World) (head : Coord)
    (tail : List Coord) (hrun : w.st.gameOver = false) (hs : w.st.snake = head :: tail)
    (hc : newHead head w.st.direction ∉ w.st.snake)
    (hf : (newHead head w.st.direction).x = w.st.food.x ∧
      (newHead head w.st.direction).y = w.st.food.y)
    (hg1 : (DIFFICULTY_SETTINGS w.st.difficulty).foodFrequency < rand w.used)
    (hg2 : (DIFFICULTY_SETTINGS w.st.difficulty).foodFrequency < rand (w.used + 1)) :
    ∃ w2, moveSnake rand w = some w2 ∧
      w2.st.food = w.st.food ∧
      w2.st.snake.head? = some (newHead head w.st.direction) ∧
      w2.st.food.cell = newHead head w.st.direction ∧
      w2.st.score = w.st.score + 1 ∧
      w2.used = w.used + 2 := by
  have e1 : generateFood rand w.st.difficulty
      (playSound .eatSound (setScore (fun prevScore => prevScore + 1) w)) =
      drawn 1 (playSound .eatSound (setScore (fun prevScore => prevScore + 1) w)) :=
    generateFood_skip rand _ _ hg1
  have e2 : generateFood rand w.st.difficulty
      (setSnake (newHead head w.st.direction :: w.st.snake)
        (drawn 1 (playSound .eatSound (setScore (fun prevScore => prevScore + 1) w)))) =
      drawn 1 (setSnake (newHead head w.st.direction :: w.st.snake)
        (drawn 1 (playSound .eatSound (setScore (fun prevScore => prevScore + 1) w)))) :=
    generateFood_skip rand _ _ hg2
  have hm := moveSnake_eat rand w head tail hrun hs hc hf
  rw [e1, e2] at hm
  refine ⟨_, hm, rfl, rfl, ?_, rfl, rfl⟩
  show (⟨w.st.food.x, w.st.food.y⟩ : Coord) = newHead head w.st.direction
  rw [← hf.1, ← hf.2]

theorem moveSnake_eaten_food_stays_witness :
    ∃ w2, moveSnake skipRand (scenarioWorld none) = some w2 ∧
      w2.st.food = ⟨8, 7, none⟩ ∧ w2.st.snake = [⟨8, 7⟩, ⟨7, 7⟩] ∧ w2.st.score = 1 := by
  have hg : ∀ k, (DIFFICULTY_SETTINGS (scenarioWorld none).st.difficulty).foodFrequency <
      skipRand k := by
    intro k
    show (DIFFICULTY_SETTINGS .medium).foodFrequency < skipRand k
    norm_num [DIFFICULTY_SETTINGS, skipRand]
  obtain ⟨w2, h, h1, -, -, h4, -⟩ := moveSnake_eaten_food_stays skipRand (scenarioWorld none)
    ⟨7, 7⟩ [] rfl rfl (by decide) (by decide) (hg _) (hg _)
  have hm := moveSnake_eat skipRand (scenarioWorld none) ⟨7, 7⟩ [] rfl rfl
    (by decide) (by decide)
  rw [skipRand_skip, skipRand_skip] at hm
  have hw := Option.some.inj (hm.symm.trans h)
  refine ⟨w2, h, h1, ?_, h4⟩
  rw [← hw]
  decide

/-! ## Invariants of every run -/

theorem moveSnake_cases (rand : Nat → ℚ) (w w2 : World) (h : moveSnake rand w = some w2) :
    (w.st.gameOver = true ∧ w2 = w) ∨
      ∃ head tail, w.st.gameOver = false ∧ w.st.snake = head :: tail ∧
        ((newHead head w.st.direction ∈ w.st.snake ∧
            w2 = playSound .gameOverSound (setGameOver true w)) ∨
          (newHead head w.st.direction ∉ w.st.snake ∧
            w2 = generateFood rand w.st.difficulty
              (setSnake (newHead head w.st.direction :: w.st.snake)
                (generateFood rand w.st.difficulty
                  (playSound .eatSound (setScore (fun prevScore => prevScore + 1) w))))) ∨
          (newHead head w.st.direction ∉ w.st.snake ∧
            w2 = generateFood rand w.st.difficulty
              (setSnake (newHead head w.st.direction :: w.st.snake).dropLast w))) := by
  cases hover : w.st.gameOver with
  | true =>
    left
    rw [moveSnake_over rand w hover] at h
    exact ⟨rfl, (Option.some.inj h).symm⟩
  | false =>
    right
    cases hs : w.st.snake with
    | nil =>
      unfold moveSnake at h
      simp [hover, hs] at h
    | cons head tail =>
      refine ⟨head, tail, rfl, rfl, ?_⟩
      rw [← hs]
      by_cases hc : newHead head w.st.direction ∈ w.st.snake
      · left
        rw [moveSnake_collide rand w head tail hover hs hc] at h
        exact ⟨hc, (Option.some.inj h).symm⟩
      · right
        by_cases hf : (newHead head w.st.direction).x = w.st.food.x ∧
            (newHead head w.st.direction).y = w.st.food.y
        · left
          rw [moveSnake_eat rand w head tail hover hs hc hf] at h
          exact ⟨hc, (Option.some.inj h).symm⟩
        · right
          rw [moveSnake_plain rand w head tail hover hs hc hf] at h
          exact ⟨hc, (Option.some.inj h).symm⟩

theorem wellShaped_of_frame (w w2 : World) (h : wellShaped w)
    (hs : w2.st.snake = w.st.snake) (hd : w2.st.direction = w.st.direction) :
    wellShaped w2 := by
  unfold wellShaped
  rw [hs, hd]
  exact h

theorem wellShaped_grow (w w2 : World) (head : Coord) (tail : List Coord)
    (h : wellShaped w) (hs : w.st.snake = head :: tail)
    (hc : newHead head w.st.direction ∉ w.st.snake)
    (hs2 : w2.st.snake = newHead head w.st.direction :: w.st.snake)
    (hd : w2.st.direction = w.st.direction) : wellShaped w2 := by
  obtain ⟨h1, h2, h3, h4⟩ := h
  unfold wellShaped
  rw [hs2, hd]
  refine ⟨h1, List.nodup_cons.mpr ⟨hc, h2⟩, ?_, ?_⟩
  · rw [hs, List.chain'_cons]
    rw [hs] at h3
    exact ⟨⟨w.st.direction, h1, rfl⟩, h3⟩
  · intro c hmem
    rcases List.mem_cons.mp hmem with e | e
    · rw [e]
      exact newHead_inGrid_of_bounds head w.st.direction
        (h4 head (by rw [hs]; exact List.mem_cons_self _ _)) (unitDirections_bounds h1)
    · exact h4 c e

theorem wellShaped_dropLast (w w2 : World) (h : wellShaped w)
    (hs : w2.st.snake = w.st.snake.dropLast) (hd : w2.st.direction = w.st.direction) :
    wellShaped w2 := by
  obtain ⟨h1, h2, h3, h4⟩ := h
  unfold wellShaped
  rw [hs, hd]
  exact ⟨h1, h2.sublist (List.dropLast_sublist _), h3.init,
    fun c hmem => h4 c (List.dropLast_subset _ hmem)⟩

theorem moveSnake_wellShaped (rand : Nat → ℚ) (w w2 : World) (h : wellShaped w)
    (hm : moveSnake rand w = some w2) : wellShaped w2 := by
  rcases moveSnake_cases rand w w2 hm with ⟨-, e⟩ | ⟨head, tail, -, hs, hcase⟩
  · rw [e]; exact h
  · rcases hcase with ⟨-, e⟩ | ⟨hc, e⟩ | ⟨hc, e⟩
    · rw [e]
      exact wellShaped_of_frame w _ h rfl rfl
    · rw [e]
      obtain ⟨a1, a2, -⟩ := generateFood_frame rand w.st.difficulty
        (setSnake (newHead head w.st.direction :: w.st.snake)
          (generateFood rand w.st.difficulty
            (playSound .eatSound (setScore (fun prevScore => prevScore + 1) w))))
      obtain ⟨-, b2, -⟩ := generateFood_frame rand w.st.difficulty
        (playSound .eatSound (setScore (fun prevScore => prevScore + 1) w))
      exact wellShaped_grow w _ head tail h hs hc a1 (a2.trans b2)
    · rw [e]
      obtain ⟨a1, a2, -⟩ := generateFood_frame rand w.st.difficulty
        (setSnake (newHead head w.st.direction :: w.st.snake).dropLast w)
      have hgrown : wellShaped (setSnake (newHead head w.st.direction :: w.st.snake) w) :=
        wellShaped_grow w _ head tail h hs hc rfl rfl
      exact wellShaped_dropLast _ _ hgrown a1 a2

theorem handleKeyPress_wellShaped (key : String) (w : World) (h : wellShaped w) :
    wellShaped (handleKeyPress key w) := by
  cases hk : keyDirection key with
  | none => rw [handleKeyPress_other key w hk]; exact h
  | some v =>
    by_cases hv : v = w.st.direction
    · rw [handleKeyPress_same key w (hv ▸ hk)]; exact h
    · rw [handleKeyPress_turn key v w hk hv]
      obtain ⟨-, h2, h3, h4⟩ := h
      exact ⟨keyDirection_unit key v hk, h2, h3, h4⟩

theorem resetGame_wellShaped (rand : Nat → ℚ) (d : Difficulty) (w : World) :
    wellShaped (resetGame rand d w) := by
  obtain ⟨a1, a2, -⟩ := resetGame_frame rand d w
  unfold wellShaped
  rw [a1, a2]
  exact ⟨by decide, by decide, List.chain'_singleton _, by decide⟩

theorem perform_wellShaped (rand : Nat → ℚ) (w w2 : World) (a : Action) (h : wellShaped w)
    (hp : perform rand w a = some w2) : wellShaped w2 := by
  cases a with
  | tick => exact moveSnake_wellShaped rand w w2 h hp
  | key k =>
    rw [← Option.some.inj hp]
    exact handleKeyPress_wellShaped k w h
  | reset =>
    rw [← Option.some.inj hp]
    exact resetGame_wellShaped rand _ w
  | difficulty d =>
    rw [← Option.some.inj hp]
    exact resetGame_wellShaped rand _ _

/-- A property that every handler keeps holds at the end of every run. -/
theorem run_invariant (rand : Nat → ℚ) (P : World → Prop)
    (hstep : ∀ w w2 a, P w → perform rand w a = some w2 → P w2) (acts : List Action) :
    ∀ w w2, P w → run rand acts w = some w2 → P w2 := by
  induction acts with
  | nil =>
    intro w w2 hP h
    rw [← Option.some.inj h]
    exact hP
  | cons a as ih =>
    intro w w2 hP h
    rw [run] at h
    cases hp : perform rand w a with
    | none => rw [hp] at h; exact absurd h (by simp)
    | some w1 =>
      rw [hp] at h
      exact ih w1 w2 (hstep w w1 a hP hp) h

theorem initialWorld_wellShaped : wellShaped initialWorld :=
  ⟨by decide, by decide, List.chain'_singleton _, by decide⟩

theorem run_wellShaped (rand : Nat → ℚ) (acts : List Action) :
    ∃ w, run rand acts initialWorld = some w ∧ wellShaped w := by
  obtain ⟨w, hw, -⟩ := run_growth rand acts initialWorld rfl
  exact ⟨w, hw, run_invariant rand wellShaped (fun w w2 a => perform_wellShaped rand w w2 a)
    acts initialWorld w initialWorld_wellShaped hw⟩

theorem run_shortGame :
    run skipRand shortGame initialWorld =
      some ⟨{ initialState with direction := ⟨0, -1⟩, score := 1, snake := [⟨5, 5⟩, ⟨5, 6⟩] },
        5, [.turnSound, .turnSound, .eatSound]⟩ := by
  have n1 : newHead ⟨7, 7⟩ ⟨-1, 0⟩ = ⟨6, 7⟩ := by decide
  have n2 : newHead ⟨6, 7⟩ ⟨-1, 0⟩ = ⟨5, 7⟩ := by decide
  have n3 : newHead ⟨5, 7⟩ ⟨0, -1⟩ = ⟨5, 6⟩ := by decide
  have n4 : newHead ⟨5, 6⟩ ⟨0, -1⟩ = ⟨5, 5⟩ := by decide
  simp [run, perform, shortGame, handleKeyPress, keyDirection, moveSnake, initialWorld,
    initialState, INITIAL_SNAKE, INITIAL_DIRECTION, onSnake, skipRand_skip, playSound,
    setSnake, setScore, setDirection, drawn, n1, n2, n3, n4, jsIndex, AI_TERMS,
    DIFFICULTY_SETTINGS]

theorem chain_adjacent_get (snake : List Coord) (h : snake.Chain' adjacent) (i : Nat)
    (a b : Coord) (ha : snake.get? i = some a) (hb : snake.get? (i + 1) = some b) :
    ∃ d ∈ unitDirections, newHead b d = a := by
  obtain ⟨hi, ea⟩ := List.get?_eq_some.mp ha
  obtain ⟨hj, eb⟩ := List.get?_eq_some.mp hb
  have hrel := List.chain'_iff_get.mp h i (by omega)
  rw [ea, eb] at hrel
  exact hrel

/-- C14. No duplicate segments: from the initial state, every sequence of ticks,
key presses, resets and difficulty changes, under any draws, runs to a state
whose snake holds no cell twice. -/
theorem snake_nodup (rand : Nat → ℚ) (acts : List Action) :
    ∃ w, run rand acts initialWorld = some w ∧ w.st.snake.Nodup := by
  obtain ⟨w, hw, -, h2, -⟩ := run_wellShaped rand acts
  exact ⟨w, hw, h2⟩

/-- C15. Adjacency invariant: from the initial state, every sequence of ticks, key
presses, resets and difficulty changes runs to a state in which consecutive
segments of the snake are adjacent on the torus: for a segment `a` and the next
one towards the tail `b`, one of the four unit directions `d` has
`newHead b d = a`. -/
theorem snake_adjacent (rand : Nat → ℚ) (acts : List Action) :
    ∃ w, run rand acts initialWorld = some w ∧
      w.st.snake.Chain' adjacent ∧
      ∀ (i : Nat) (a b : Coord), w.st.snake.get? i = some a →
        w.st.snake.get? (i + 1) = some b → ∃ d ∈ unitDirections, newHead b d = a := by
  obtain ⟨w, hw, -, -, h3, -⟩ := run_wellShaped rand acts
  exact ⟨w, hw, h3, chain_adjacent_get w.st.snake h3⟩

theorem snake_adjacent_witness :
    ∃ d ∈ unitDirections, newHead ⟨5, 6⟩ d = ⟨5, 5⟩ := by
  obtain ⟨w, hw, -, h⟩ := snake_adjacent skipRand shortGame
  have hwe := Option.some.inj (hw.symm.trans run_shortGame)
  exact h 0 ⟨5, 5⟩ ⟨5, 6⟩ (by rw [hwe]; rfl) (by rw [hwe]; rfl)

theorem generateFood_food_inGrid (rand : Nat → ℚ) (hr : ∀ k, 0 ≤ rand k ∧ rand k < 1)
    (d : Difficulty) (w : World) (h : inGrid w.st.food.cell) :
    inGrid (generateFood rand d w).st.food.cell := by
  unfold generateFood
  split
  · exact h
  · exact (newFood_range _ _ _ (hr _) (hr _) (hr _)).1

theorem perform_food_inGrid (rand : Nat → ℚ) (hr : ∀ k, 0 ≤ rand k ∧ rand k < 1)
    (w w2 : World) (a : Action) (h : inGrid w.st.food.cell)
    (hp : perform rand w a = some w2) : inGrid w2.st.food.cell := by
  cases a with
  | tick =>
    rcases moveSnake_cases rand w w2 hp with ⟨-, e⟩ | ⟨head, tail, -, -, hcase⟩
    · rw [e]; exact h
    · rcases hcase with ⟨-, e⟩ | ⟨-, e⟩ | ⟨-, e⟩
      · rw [e]; exact h
      · rw [e]
        apply generateFood_food_inGrid rand hr
        exact generateFood_food_inGrid rand hr w.st.difficulty
          (playSound .eatSound (setScore (fun prevScore => prevScore + 1) w)) h
      · rw [e]
        exact generateFood_food_inGrid rand hr _ _ h
  | key k =>
    rw [← Option.some.inj hp, (handleKeyPress_frame k w).2.2.1]
    exact h
  | reset =>
    rw [← Option.some.inj hp]
    exact generateFood_food_inGrid rand hr w.st.difficulty
      (setDirection INITIAL_DIRECTION (setSnake INITIAL_SNAKE w)) h
  | difficulty d =>
    rw [← Option.some.inj hp]
    exact generateFood_food_inGrid rand hr w.st.difficulty
      (setDirection INITIAL_DIRECTION (setSnake INITIAL_SNAKE
        (setGameSpeed (DIFFICULTY_SETTINGS d).speed (setDifficulty d w)))) h

/-- C19. Coordinates stay on the grid: from the initial state (snake `[(7,7)]`,
food `(5,5)`), every sequence of ticks, key presses, resets and difficulty changes,
under any draws in `[0,1)`, runs to a state in which every segment of the snake
and the food have both `x` and `y` in `[0, GRID_SIZE) = [0, 15)`. -/
theorem coordinates_on_grid (rand : Nat → ℚ) (hr : ∀ k, 0 ≤ rand k ∧ rand k < 1)
    (acts : List Action) :
    initialWorld.st.snake = [⟨7, 7⟩] ∧ initialWorld.st.food.cell = ⟨5, 5⟩ ∧
      GRID_SIZE = 15 ∧
      ∃ w, run rand acts initialWorld = some w ∧
        (∀ c ∈ w.st.snake, (0 ≤ c.x ∧ c.x < GRID_SIZE) ∧ (0 ≤ c.y ∧ c.y < GRID_SIZE)) ∧
        ((0 ≤ w.st.food.x ∧ w.st.food.x < GRID_SIZE) ∧
          (0 ≤ w.st.food.y ∧ w.st.food.y < GRID_SIZE)) := by
  obtain ⟨w, hw, -, -, -, h4⟩ := run_wellShaped rand acts
  have hfood := run_invariant rand (fun w => inGrid w.st.food.cell)
    (fun w w2 a => perform_food_inGrid rand hr w w2 a) acts initialWorld w (by decide) hw
  exact ⟨rfl, rfl, rfl, w, hw, h4, hfood⟩

theorem coordinates_on_grid_witness :
    ∃ w, run centreRand mixedGame initialWorld = some w ∧
      (∀ c ∈ w.st.snake, (0 ≤ c.x ∧ c.x < GRID_SIZE) ∧ (0 ≤ c.y ∧ c.y < GRID_SIZE)) ∧
      ((0 ≤ w.st.food.x ∧ w.st.food.x < GRID_SIZE) ∧
        (0 ≤ w.st.food.y ∧ w.st.food.y < GRID_SIZE)) :=
  (coordinates_on_grid centreRand
    (fun k => by unfold centreRand; split <;> norm_num) mixedGame).2.2.2

end AISnakeGame
